import Mathlib

/-!
Verification of the Open Assets marker-output codec and colored-address
encoder of `openassets-tapyrus` (files `src/openassets/marker_output.rs`
and `src/openassets/address.rs`).

Bytes are modelled as `Nat` values below 256 and byte streams as
`List Nat`.  Machine integers (`u8`/`u16`/`u32`/`u64`) are `Nat` with
explicit `% 2^w` where Rust's wrapping matters.  The decoding functions of
the `tapyrus` consensus-serialization dependency that the source calls
(`u16`/`VarInt`/`Vec<u8>` codecs, `deserialize`, the script-instruction
iterator and base58check) are embedded from that library's code
(`tapyrus` is a fork of rust-bitcoin; its `consensus::encode` and
`util::base58` modules are verbatim rust-bitcoin 0.26 code plus the
colored-address payload variants).

Rust arithmetic is embedded with checked-overflow semantics: the one
place the source can overflow — the LEB128 accumulator shift
`((b as u64) & 0x7f) << offset` once `offset ≥ 64` — is modelled as the
distinguished outcome `panicked`, which is what a build with overflow
checks (debug, fuzzing) does; a release build masks the shift amount and
silently produces a wrong value instead, so neither configuration
returns a correct result there.
-/

namespace OAT

/-- The `tapyrus::consensus::encode::Error` values reachable from this
codebase's decode paths. -/
inductive DecodeError where
  | truncated
  | invalidMarker
  | invalidVersion
  | nonMinimalVarInt
  | oversizedVector (requested : Nat)
  | notConsumedEntirely
deriving Repr, DecidableEq

/-- Outcome of running a piece of Rust decode code against a byte stream:
a value together with the unconsumed rest of the stream, an error value,
or a panic (checked arithmetic overflow). -/
inductive DecResult (α : Type) where
  | ok : α → List Nat → DecResult α
  | err : DecodeError → DecResult α
  | panicked : DecResult α
deriving Repr, DecidableEq

/-- Source: `pub const MARKER: u16 = 0x4f41;` -/
def MARKER : Nat := 0x4f41

/-- Source: `pub const VERSION: u16 = 0x0100;` -/
def VERSION : Nat := 0x0100

/-- Source: `u16::to_be` on a little-endian host: swap the two bytes. -/
def swap16 (v : Nat) : Nat := (v % 256) * 256 + v / 256 % 256

/-- Consensus encoding of a `u16`: two little-endian bytes. -/
def u16LE (v : Nat) : List Nat := [v % 256, v / 256 % 256]

/-- Consensus encoding of a `u32`: four little-endian bytes. -/
def u32LE (v : Nat) : List Nat :=
  [v % 256, v / 256 % 256, v / 65536 % 256, v / 16777216 % 256]

/-- Consensus encoding of a `u64`: eight little-endian bytes. -/
def u64LE (v : Nat) : List Nat :=
  u32LE (v % 4294967296) ++ u32LE (v / 4294967296 % 4294967296)

/-- Source: `ReadExt::read_u8`: one byte, or `Io(UnexpectedEof)` past the end. -/
def readU8 : List Nat → DecResult Nat
  | [] => .err .truncated
  | b :: rest => .ok b rest

/-- Source: `ReadExt::read_u16`: two little-endian bytes. -/
def readU16 : List Nat → DecResult Nat
  | b0 :: b1 :: rest => .ok (b0 + 256 * b1) rest
  | _ => .err .truncated

/-- Source: `ReadExt::read_u32`: four little-endian bytes. -/
def readU32 : List Nat → DecResult Nat
  | b0 :: b1 :: b2 :: b3 :: rest =>
      .ok (b0 + 256 * b1 + 65536 * b2 + 16777216 * b3) rest
  | _ => .err .truncated

/-- Source: `ReadExt::read_u64`: eight little-endian bytes. -/
def readU64 : List Nat → DecResult Nat
  | b0 :: b1 :: b2 :: b3 :: b4 :: b5 :: b6 :: b7 :: rest =>
      .ok (b0 + 256 * b1 + 65536 * b2 + 16777216 * b3
           + 4294967296 * (b4 + 256 * b5 + 65536 * b6 + 16777216 * b7)) rest
  | _ => .err .truncated

/-- Source: `read_slice` (`read_exact`): `n` bytes, or `Io(UnexpectedEof)`. -/
def readSlice (n : Nat) (l : List Nat) : DecResult (List Nat) :=
  if n ≤ l.length then .ok (l.take n) (l.drop n) else .err .truncated

/-- Source: `VarInt::consensus_encode` (Bitcoin CompactSize). -/
def encodeVarInt (n : Nat) : List Nat :=
  if n < 0xFD then [n]
  else if n ≤ 0xFFFF then 0xFD :: u16LE n
  else if n ≤ 0xFFFFFFFF then 0xFE :: u32LE n
  else 0xFF :: u64LE n

/-- Source: `VarInt::consensus_decode`, including the non-minimal-encoding
rejection of rust-bitcoin 0.26. -/
def decodeVarInt (l : List Nat) : DecResult Nat :=
  match readU8 l with
  | .err e => .err e
  | .panicked => .panicked
  | .ok n rest =>
    if n = 0xFF then
      match readU64 rest with
      | .err e => .err e
      | .panicked => .panicked
      | .ok x rest' =>
        if x < 0x100000000 then .err .nonMinimalVarInt else .ok x rest'
    else if n = 0xFE then
      match readU32 rest with
      | .err e => .err e
      | .panicked => .panicked
      | .ok x rest' =>
        if x < 0x10000 then .err .nonMinimalVarInt else .ok x rest'
    else if n = 0xFD then
      match readU16 rest with
      | .err e => .err e
      | .panicked => .panicked
      | .ok x rest' =>
        if x < 0xFD then .err .nonMinimalVarInt else .ok x rest'
    else .ok n rest

/-- The quantity-encoding loop of `Payload::consensus_encode`: emit the
low 7 bits (`value & 0x7F`), set the high bit when `value >> 7` is still
non-zero, repeat on `value >> 7`. -/
def encodeLeb128 (v : Nat) : List Nat :=
  if h : v / 128 = 0 then [v % 128]
  else (v % 128 + 128) :: encodeLeb128 (v / 128)
decreasing_by
  exact Nat.div_lt_self (Nat.pos_of_ne_zero (fun h0 => h (by simp [h0]))) (by norm_num)

/-- The quantity-decoding loop of `Payload::consensus_decode`:
`value |= ((b as u64) & 0x7f) << offset`, stop on a clear high bit, else
`offset += 7`.  The shift is a `u64` shift: its result is reduced
`% 2^64`, and a shift amount `≥ 64` is an arithmetic overflow —
`panicked` under checked semantics. -/
def decodeLeb128 : List Nat → Nat → Nat → DecResult Nat
  | [], _, _ => .err .truncated
  | b :: rest, value, offset =>
    if 64 ≤ offset then .panicked
    else
      let value' := value ||| ((b &&& 0x7f) <<< offset % 2 ^ 64)
      if b &&& 0x80 = 0 then .ok value' rest
      else decodeLeb128 rest value' (offset + 7)

/-- Source: `Metadata(Vec<u8>)`. -/
structure Metadata where
  data : List Nat
deriving Repr, DecidableEq

/-- Source: `Payload { quantities: Vec<u64>, metadata: Metadata }`. -/
structure Payload where
  quantities : List Nat
  metadata : Metadata
deriving Repr, DecidableEq

/-- Source: `Metadata::consensus_encode`: the `Vec<u8>` consensus encoding, a
`VarInt` length prefix followed by the raw bytes. -/
def Metadata.consensus_encode (m : Metadata) : List Nat :=
  encodeVarInt (m.data.length % 2 ^ 64) ++ m.data

/-- Source: `MAX_VEC_SIZE` of `tapyrus::consensus::encode`. -/
def MAX_VEC_SIZE : Nat := 4000000

/-- Source: `Metadata::consensus_decode`: the `Vec<u8>` consensus decoding — a
`VarInt` length, the `MAX_VEC_SIZE` allocation guard, then that many raw
bytes. -/
def Metadata.consensus_decode (l : List Nat) : DecResult Metadata :=
  match decodeVarInt l with
  | .err e => .err e
  | .panicked => .panicked
  | .ok len rest =>
    if MAX_VEC_SIZE < len then .err (.oversizedVector len)
    else
      match readSlice len rest with
      | .err e => .err e
      | .panicked => .panicked
      | .ok bytes rest' => .ok ⟨bytes⟩ rest'

/-- Source: `Payload::consensus_encode`: big-endian marker and version tags
(`to_be` then little-endian write), a `VarInt` count, each quantity in
LEB128, then the metadata blob. -/
def Payload.consensus_encode (p : Payload) : List Nat :=
  u16LE (swap16 MARKER) ++ u16LE (swap16 VERSION)
  ++ encodeVarInt (p.quantities.length % 2 ^ 64)
  ++ (p.quantities.map encodeLeb128).flatten
  ++ p.metadata.consensus_encode

/-- The `for _ in 0..count` quantity loop of `Payload::consensus_decode`. -/
def decodeQuantities : Nat → List Nat → DecResult (List Nat)
  | 0, l => .ok [] l
  | n + 1, l =>
    match decodeLeb128 l 0 0 with
    | .err e => .err e
    | .panicked => .panicked
    | .ok v rest =>
      match decodeQuantities n rest with
      | .err e => .err e
      | .panicked => .panicked
      | .ok vs rest' => .ok (v :: vs) rest'

/-- Source: `Payload::consensus_decode`: marker tag, version tag, `VarInt`
count, `count` LEB128 quantities, then the metadata blob. -/
def Payload.consensus_decode (l : List Nat) : DecResult Payload :=
  match readU16 l with
  | .err e => .err e
  | .panicked => .panicked
  | .ok marker rest =>
    if marker ≠ swap16 MARKER then .err .invalidMarker
    else
      match readU16 rest with
      | .err e => .err e
      | .panicked => .panicked
      | .ok version rest' =>
        if version ≠ swap16 VERSION then .err .invalidVersion
        else
          match decodeVarInt rest' with
          | .err e => .err e
          | .panicked => .panicked
          | .ok count rest'' =>
            match decodeQuantities count rest'' with
            | .err e => .err e
            | .panicked => .panicked
            | .ok qs rest''' =>
              match Metadata.consensus_decode rest''' with
              | .err e => .err e
              | .panicked => .panicked
              | .ok md rest'''' => .ok ⟨qs, md⟩ rest''''

/-- Final outcome of a whole decode call (no unconsumed rest). -/
inductive Outcome (α : Type) where
  | ok : α → Outcome α
  | err : DecodeError → Outcome α
  | panicked : Outcome α
deriving Repr, DecidableEq

/-- Source: `tapyrus::consensus::deserialize::<Payload>`: run the decoder and
reject any unconsumed trailing bytes
(`ParseFailed("data not consumed entirely when explicitly deserializing")`). -/
def deserializePayload (l : List Nat) : Outcome Payload :=
  match Payload.consensus_decode l with
  | .ok p rest => if rest = [] then .ok p else .err .notConsumedEntirely
  | .err e => .err e
  | .panicked => .panicked

/-- A tapyrus `Script`: its raw bytes. -/
structure Script where
  bytes : List Nat
deriving Repr, DecidableEq

/-- Source: `Script::is_op_return`: non-empty and first opcode `OP_RETURN`
(`0x6a`). -/
def Script.is_op_return (s : Script) : Bool :=
  match s.bytes with
  | [] => false
  | b :: _ => b = 0x6a

/-- A parsed script instruction: a data push or a lone opcode. -/
inductive Instruction where
  | pushBytes : List Nat → Instruction
  | op : Nat → Instruction
deriving Repr, DecidableEq

/-- One step of the `Instructions` iterator of `tapyrus` (rust-bitcoin
0.26, `enforce_minimal = false`): `none` when the script is exhausted,
`Except.error` for `EarlyEndOfScript`, otherwise the instruction and the
remaining script bytes.  Opcodes `0x00`–`0x4b` push that many following
bytes; `0x4c`/`0x4d`/`0x4e` are `OP_PUSHDATA1/2/4` with a 1/2/4-byte
little-endian length. -/
def nextInstruction : List Nat → Option (Except Unit (Instruction × List Nat))
  | [] => none
  | b :: rest =>
    if b ≤ 0x4b then
      if b ≤ rest.length then
        some (.ok (.pushBytes (rest.take b), rest.drop b))
      else some (.error ())
    else if b = 0x4c then
      match rest with
      | [] => some (.error ())
      | n :: r2 =>
        if n ≤ r2.length then some (.ok (.pushBytes (r2.take n), r2.drop n))
        else some (.error ())
    else if b = 0x4d then
      match rest with
      | n0 :: n1 :: r2 =>
        let n := n0 + 256 * n1
        if n ≤ r2.length then some (.ok (.pushBytes (r2.take n), r2.drop n))
        else some (.error ())
      | _ => some (.error ())
    else if b = 0x4e then
      match rest with
      | n0 :: n1 :: n2 :: n3 :: r2 =>
        let n := n0 + 256 * n1 + 65536 * n2 + 16777216 * n3
        if n ≤ r2.length then some (.ok (.pushBytes (r2.take n), r2.drop n))
        else some (.error ())
      | _ => some (.error ())
    else some (.ok (.op b, rest))

/-- A tapyrus `TxOut`. -/
structure TxOut where
  value : Nat
  script_pubkey : Script
deriving Repr, DecidableEq

/-- Source: `TxOutExt::get_op_return_data`: for an OP_RETURN script, skip the
first instruction, then return the pushed bytes of the second
instruction; every other shape (no second instruction, a parse error,
or a non-push instruction) yields the empty vector. -/
def TxOut.get_op_return_data (o : TxOut) : List Nat :=
  if o.script_pubkey.is_op_return then
    let afterFirst : Option (List Nat) :=
      match nextInstruction o.script_pubkey.bytes with
      | some (.ok (_, rest)) => some rest
      | some (.error _) => none
      | none => none
    match afterFirst with
    | none => []
    | some rest =>
      match nextInstruction rest with
      | none => []
      | some (.error _) => []
      | some (.ok (.pushBytes v, _)) => v
      | some (.ok (.op _, _)) => []
  else []

/-- Source: `TxOutExt::get_oa_payload`: deserialize the OP_RETURN push data. -/
def TxOut.get_oa_payload (o : TxOut) : Outcome Payload :=
  deserializePayload o.get_op_return_data

/-- Source: `TxOutExt::is_openassets_marker`: an OP_RETURN script whose push
data deserializes as a `Payload`.  A decode panic propagates. -/
def TxOut.is_openassets_marker (o : TxOut) : Outcome Bool :=
  if o.script_pubkey.is_op_return then
    match o.get_oa_payload with
    | .ok _ => .ok true
    | .err _ => .ok false
    | .panicked => .panicked
  else .ok false

/-- UTF-8 decoding of a byte sequence into Unicode scalar values, per
Rust's `String::from_utf8` validity rules (RFC 3629: no overlong forms,
no surrogates, max `0x10FFFF`); `none` exactly when `String::from_utf8`
would reject the bytes. -/
def utf8Decode : List Nat → Option (List Nat)
  | [] => some []
  | b0 :: rest =>
    if b0 < 0x80 then (utf8Decode rest).map (b0 :: ·)
    else if b0 < 0xC2 then none
    else if b0 < 0xE0 then
      match rest with
      | b1 :: r2 =>
        if 0x80 ≤ b1 ∧ b1 < 0xC0 then
          (utf8Decode r2).map (((b0 - 0xC0) * 64 + (b1 - 0x80)) :: ·)
        else none
      | _ => none
    else if b0 < 0xF0 then
      match rest with
      | b1 :: b2 :: r2 =>
        let lo1 := if b0 = 0xE0 then 0xA0 else 0x80
        let hi1 := if b0 = 0xED then 0xA0 else 0xC0
        if (lo1 ≤ b1 ∧ b1 < hi1) ∧ (0x80 ≤ b2 ∧ b2 < 0xC0) then
          (utf8Decode r2).map (((b0 - 0xE0) * 4096 + (b1 - 0x80) * 64 + (b2 - 0x80)) :: ·)
        else none
      | _ => none
    else if b0 < 0xF5 then
      match rest with
      | b1 :: b2 :: b3 :: r2 =>
        let lo1 := if b0 = 0xF0 then 0x90 else 0x80
        let hi1 := if b0 = 0xF4 then 0x90 else 0xC0
        if (lo1 ≤ b1 ∧ b1 < hi1) ∧ (0x80 ≤ b2 ∧ b2 < 0xC0) ∧ (0x80 ≤ b3 ∧ b3 < 0xC0) then
          (utf8Decode r2).map
            (((b0 - 0xF0) * 262144 + (b1 - 0x80) * 4096 + (b2 - 0x80) * 64 + (b3 - 0x80)) :: ·)
        else none
      | _ => none
    else none

/-- Outcome of a Rust `Display` implementation: the formatted output, or
a panic raised while formatting. -/
inductive FmtResult where
  | ok : List Nat → FmtResult
  | panicked : FmtResult
deriving Repr, DecidableEq

/-- Source: `impl fmt::Display for Metadata`: write the UTF-8 decoding of the
bytes, or `panic!("invalid utf-8 string")` when `String::from_utf8`
fails.  The output is represented by its scalar values. -/
def Metadata.display (m : Metadata) : FmtResult :=
  match utf8Decode m.data with
  | some s => .ok s
  | none => .panicked

/-- Source: `tapyrus::network::constants::Network`. -/
inductive Network where
  | prod
  | dev
deriving Repr, DecidableEq

/-- Source: `tapyrus::util::address::Payload`: the four address payload
variants.  `hash` is a 20-byte hash160 and `colorId` a 33-byte color
identifier; the fixed sizes are carried as hypotheses where they
matter. -/
inductive AddrPayload where
  | pubkeyHash : List Nat → AddrPayload
  | scriptHash : List Nat → AddrPayload
  | coloredPubkeyHash : List Nat → List Nat → AddrPayload
  | coloredScriptHash : List Nat → List Nat → AddrPayload
deriving Repr, DecidableEq

/-- A `tapyrus::Address`. -/
structure TapyrusAddress where
  network : Network
  payload : AddrPayload
deriving Repr, DecidableEq

/-- The Open Assets `Address` of `src/openassets/address.rs`. -/
structure Address where
  network : Network
  payload : AddrPayload
deriving Repr, DecidableEq

/-- Source: `const NAMESPACE: u8 = 0x13;` -/
def NAMESPACE : Nat := 0x13

/-- Source: `Address::new`: always `Ok`. -/
def Address.new (payload : AddrPayload) (network : Network) : Except DecodeError Address :=
  .ok ⟨network, payload⟩

/-- Source: `Address::to_btc_addr`: rebuild a `tapyrus::Address` from the same
network and payload; always `Ok`. -/
def Address.to_btc_addr (a : Address) : Except DecodeError TapyrusAddress :=
  .ok ⟨a.network, a.payload⟩

/-- Source: `OAAddressConverter::to_oa_address` for `tapyrus::Address`. -/
def TapyrusAddress.to_oa_address (a : TapyrusAddress) : Except DecodeError Address :=
  Address.new a.payload a.network

/-- Source: `dst[start..start+src.len()].copy_from_slice(&src)` on a list. -/
def copyFromSlice (dst : List Nat) (start : Nat) (src : List Nat) : List Nat :=
  dst.take start ++ src ++ dst.drop (start + src.length)

/-- The pre-checksum buffer built by `impl Display for Address`: a
zeroed 22- or 55-byte array, `NAMESPACE` at index 0, the
network/variant selector byte at index 1, then the hash material copied
in (`hash` at 2.., or `colorId` at 2..35 and `hash` at 35..). -/
def Address.preChecksum (a : Address) : List Nat :=
  match a.payload with
  | .pubkeyHash hash =>
    let prefixed := List.replicate 22 0
    let prefixed := prefixed.set 0 NAMESPACE
    let prefixed := prefixed.set 1 (match a.network with | .prod => 0 | .dev => 111)
    copyFromSlice prefixed 2 hash
  | .scriptHash hash =>
    let prefixed := List.replicate 22 0
    let prefixed := prefixed.set 0 NAMESPACE
    let prefixed := prefixed.set 1 (match a.network with | .prod => 5 | .dev => 196)
    copyFromSlice prefixed 2 hash
  | .coloredPubkeyHash colorId hash =>
    let prefixed := List.replicate 55 0
    let prefixed := prefixed.set 0 NAMESPACE
    let prefixed := prefixed.set 1 (match a.network with | .prod => 1 | .dev => 112)
    let prefixed := copyFromSlice prefixed 2 colorId
    copyFromSlice prefixed 35 hash
  | .coloredScriptHash colorId hash =>
    let prefixed := List.replicate 55 0
    let prefixed := prefixed.set 0 NAMESPACE
    let prefixed := prefixed.set 1 (match a.network with | .prod => 6 | .dev => 197)
    let prefixed := copyFromSlice prefixed 2 colorId
    copyFromSlice prefixed 35 hash

/-- SHA-256 round constants. -/
def K256 : List Nat :=
  [1116352408, 1899447441, 3049323471, 3921009573, 961987163, 1508970993, 2453635748,
   2870763221, 3624381080, 310598401, 607225278, 1426881987, 1925078388, 2162078206,
   2614888103, 3248222580, 3835390401, 4022224774, 264347078, 604807628, 770255983,
   1249150122, 1555081692, 1996064986, 2554220882, 2821834349, 2952996808, 3210313671,
   3336571891, 3584528711, 113926993, 338241895, 666307205, 773529912, 1294757372,
   1396182291, 1695183700, 1986661051, 2177026350, 2456956037, 2730485921, 2820302411,
   3259730800, 3345764771, 3516065817, 3600352804, 4094571909, 275423344, 430227734,
   506948616, 659060556, 883997877, 958139571, 1322822218, 1537002063, 1747873779,
   1955562222, 2024104815, 2227730452, 2361852424, 2428436474, 2756734187, 3204031479,
   3329325298]

/-- SHA-256 initial hash state. -/
def H256 : List Nat :=
  [1779033703, 3144134277, 1013904242, 2773480762, 1359893119, 2600822924, 528734635,
   1541459225]

/-- Reduce to a 32-bit word. -/
def w32 (n : Nat) : Nat := n % 4294967296

/-- Rotate right on 32-bit words. -/
def rotr (k x : Nat) : Nat := w32 ((x >>> k) ||| (x <<< (32 - k)))

/-- SHA-256 big sigma-0. -/
def bsig0 (x : Nat) : Nat := rotr 2 x ^^^ rotr 13 x ^^^ rotr 22 x

/-- SHA-256 big sigma-1. -/
def bsig1 (x : Nat) : Nat := rotr 6 x ^^^ rotr 11 x ^^^ rotr 25 x

/-- SHA-256 small sigma-0. -/
def ssig0 (x : Nat) : Nat := rotr 7 x ^^^ rotr 18 x ^^^ (x >>> 3)

/-- SHA-256 small sigma-1. -/
def ssig1 (x : Nat) : Nat := rotr 17 x ^^^ rotr 19 x ^^^ (x >>> 10)

/-- Group bytes into big-endian 32-bit words. -/
def bytesToWords : List Nat → List Nat
  | b0 :: b1 :: b2 :: b3 :: rest =>
    (b0 * 16777216 + b1 * 65536 + b2 * 256 + b3) :: bytesToWords rest
  | _ => []

/-- A 32-bit word as four big-endian bytes. -/
def wordBytes (w : Nat) : List Nat :=
  [w / 16777216 % 256, w / 65536 % 256, w / 256 % 256, w % 256]

/-- Extend a 16-word block to the 64-word SHA-256 message schedule
(`fuel` counts the words still to append). -/
def schedExtend : Nat → List Nat → List Nat
  | 0, ws => ws
  | f + 1, ws =>
    let i := ws.length
    let w := w32 (ssig1 (ws.getD (i - 2) 0) + ws.getD (i - 7) 0
                  + ssig0 (ws.getD (i - 15) 0) + ws.getD (i - 16) 0)
    schedExtend f (ws ++ [w])

/-- SHA-256 working state. -/
structure Sha8 where
  a : Nat
  b : Nat
  c : Nat
  d : Nat
  e : Nat
  f : Nat
  g : Nat
  h : Nat
deriving Repr, DecidableEq

/-- One SHA-256 compression round. -/
def shaRound (st : Sha8) (k w : Nat) : Sha8 :=
  let ch := (st.e &&& st.f) ^^^ ((st.e ^^^ 0xFFFFFFFF) &&& st.g)
  let maj := (st.a &&& st.b) ^^^ (st.a &&& st.c) ^^^ (st.b &&& st.c)
  let t1 := w32 (st.h + bsig1 st.e + ch + k + w)
  let t2 := w32 (bsig0 st.a + maj)
  ⟨w32 (t1 + t2), st.a, st.b, st.c, w32 (st.d + t1), st.e, st.f, st.g⟩

/-- Compress one 64-byte block into the running hash state. -/
def compressBlock (hs : List Nat) (block : List Nat) : List Nat :=
  let ws := schedExtend 48 (bytesToWords block)
  let st0 : Sha8 := ⟨hs.getD 0 0, hs.getD 1 0, hs.getD 2 0, hs.getD 3 0,
                     hs.getD 4 0, hs.getD 5 0, hs.getD 6 0, hs.getD 7 0⟩
  let st := (K256.zip ws).foldl (fun s kw => shaRound s kw.1 kw.2) st0
  [w32 (hs.getD 0 0 + st.a), w32 (hs.getD 1 0 + st.b), w32 (hs.getD 2 0 + st.c),
   w32 (hs.getD 3 0 + st.d), w32 (hs.getD 4 0 + st.e), w32 (hs.getD 5 0 + st.f),
   w32 (hs.getD 6 0 + st.g), w32 (hs.getD 7 0 + st.h)]

/-- SHA-256 padding: `0x80`, zeros to 56 mod 64, 8-byte big-endian bit
length. -/
def sha256pad (msg : List Nat) : List Nat :=
  let L := msg.length
  let zeros := (119 - L % 64) % 64
  let bits := 8 * L
  msg ++ [0x80] ++ List.replicate zeros 0
  ++ [bits / 72057594037927936 % 256, bits / 281474976710656 % 256,
      bits / 1099511627776 % 256, bits / 4294967296 % 256, bits / 16777216 % 256,
      bits / 65536 % 256, bits / 256 % 256, bits % 256]

/-- Fold the padded message a block at a time (`fuel` bounds the number
of bytes left). -/
def sha256blocks : Nat → List Nat → List Nat → List Nat
  | 0, _, hs => hs
  | f + 1, msg, hs =>
    match msg with
    | [] => hs
    | _ => sha256blocks f (msg.drop 64) (compressBlock hs (msg.take 64))

/-- SHA-256 of a byte sequence. -/
def sha256 (msg : List Nat) : List Nat :=
  let padded := sha256pad msg
  ((sha256blocks padded.length padded H256).map wordBytes).flatten

/-- ASCII codes of the base58 alphabet
`123456789ABCDEFGHJKLMNPQRSTUVWXYZabcdefghijkmnopqrstuvwxyz`. -/
def B58ALPHA : List Nat :=
  [49, 50, 51, 52, 53, 54, 55, 56, 57, 65, 66, 67, 68, 69, 70, 71, 72, 74, 75, 76, 77,
   78, 80, 81, 82, 83, 84, 85, 86, 87, 88, 89, 90, 97, 98, 99, 100, 101, 102, 103, 104,
   105, 106, 107, 109, 110, 111, 112, 113, 114, 115, 116, 117, 118, 119, 120, 121, 122]

/-- Little-endian base-58 digits of `n` (`fuel` bounds the digit
count). -/
def b58digitsRev : Nat → Nat → List Nat
  | 0, _ => []
  | f + 1, n => if n = 0 then [] else (n % 58) :: b58digitsRev f (n / 58)

/-- Count the leading zero bytes, which base58 renders as leading `1`
characters. -/
def countLeadZeros : List Nat → Nat
  | [] => 0
  | b :: rest => if b = 0 then countLeadZeros rest + 1 else 0

/-- Source: `base58::encode_slice`, as ASCII codes: the big-endian value of the
bytes in base 58, with one `1` per leading zero byte. -/
def base58EncodeAscii (data : List Nat) : List Nat :=
  let n := data.foldl (fun acc b => acc * 256 + b) 0
  let digits := (b58digitsRev (8 * data.length) n).reverse
  List.replicate (countLeadZeros data) 49 ++ digits.map (fun d => B58ALPHA.getD d 0)

/-- Source: `base58::check_encode_slice`(`_to_fmt`): append the first four bytes
of the double SHA-256 checksum, then base58-encode. -/
def base58CheckAscii (data : List Nat) : List Nat :=
  base58EncodeAscii (data ++ (sha256 (sha256 data)).take 4)

/-- Source: `impl Display for Address` (as ASCII codes): base58check of the
pre-checksum buffer. -/
def Address.displayAscii (a : Address) : List Nat :=
  base58CheckAscii a.preChecksum

/-- Source: `impl Display for tapyrus::Address`, plain variants (the tapyrus
library's own address formatting, used by the repository's tests to
produce the plain payment address string): base58check of a one-byte
version prefix (Prod 0 / Dev 111 for pubkey hash, Prod 5 / Dev 196 for
script hash) followed by the 20-byte hash.  The colored variants are
not needed by any claim and are mapped to `none`. -/
def TapyrusAddress.displayAscii (a : TapyrusAddress) : Option (List Nat) :=
  match a.payload with
  | .pubkeyHash hash =>
    some (base58CheckAscii ((match a.network with | .prod => 0 | .dev => 111) :: hash))
  | .scriptHash hash =>
    some (base58CheckAscii ((match a.network with | .prod => 5 | .dev => 196) :: hash))
  | _ => none

/-- The spec's notion of a plain payment address payload: a pubkey-hash
or script-hash payload carrying no color identifier.  Modelled from the
spec: "strips any color identifier and returns the underlying network +
hash payload unchanged" (Convert-to-plain-address). -/
def AddrPayload.isPlain : AddrPayload → Bool
  | .pubkeyHash _ => true
  | .scriptHash _ => true
  | .coloredPubkeyHash _ _ => false
  | .coloredScriptHash _ _ => false

/-- ASCII bytes of the metadata string of the repository's test vector,
the URL u=https://cpr.sm/5YgSU1Pg-q. -/
def metaUrl : List Nat :=
  [0x75, 0x3d, 0x68, 0x74, 0x74, 0x70, 0x73, 0x3a, 0x2f, 0x2f, 0x63, 0x70, 0x72, 0x2e,
   0x73, 0x6d, 0x2f, 0x35, 0x59, 0x67, 0x53, 0x55, 0x31, 0x50, 0x67, 0x2d, 0x71]

/-- The 20-byte hash160 of the production address
1F2AQr6oqNtcJQ6p9SiCLQTrHuM9en44H8 (base58check payload after the
version byte 0). -/
def hash1F : List Nat :=
  [0x99, 0xca, 0x08, 0x70, 0x64, 0x5e, 0xbc, 0x81, 0xab, 0xbe, 0x08, 0x06, 0x31, 0x8e,
   0xfc, 0x9f, 0xf4, 0x74, 0xe5, 0x40]

/-- ASCII bytes of akQz3f1v9JrnJAeGBC4pNzGNRdWXKan4U6E. -/
def asciiAkQz : List Nat :=
  [0x61, 0x6b, 0x51, 0x7a, 0x33, 0x66, 0x31, 0x76, 0x39, 0x4a, 0x72, 0x6e, 0x4a, 0x41,
   0x65, 0x47, 0x42, 0x43, 0x34, 0x70, 0x4e, 0x7a, 0x47, 0x4e, 0x52, 0x64, 0x57, 0x58,
   0x4b, 0x61, 0x6e, 0x34, 0x55, 0x36, 0x45]

/-- ASCII bytes of 1F2AQr6oqNtcJQ6p9SiCLQTrHuM9en44H8. -/
def ascii1F2A : List Nat :=
  [0x31, 0x46, 0x32, 0x41, 0x51, 0x72, 0x36, 0x6f, 0x71, 0x4e, 0x74, 0x63, 0x4a, 0x51,
   0x36, 0x70, 0x39, 0x53, 0x69, 0x43, 0x4c, 0x51, 0x54, 0x72, 0x48, 0x75, 0x4d, 0x39,
   0x65, 0x6e, 0x34, 0x34, 0x48, 0x38]

/-- The 33-byte color identifier used by the repository's colored-address
tests. -/
def colorIdTest : List Nat :=
  [0xc3, 0x6d, 0xb6, 0x5f, 0xd5, 0x9f, 0xd3, 0x56, 0xf6, 0x72, 0x91, 0x40, 0x57, 0x1b,
   0x5b, 0xcd, 0x6b, 0xb3, 0xb8, 0x34, 0x92, 0xa1, 0x6e, 0x1b, 0xf0, 0xa3, 0x88, 0x44,
   0x42, 0xfc, 0x3c, 0x8a, 0x0e]

/-- The 20-byte hash used by the repository's colored-address tests. -/
def hashTest : List Nat :=
  [0x8f, 0x55, 0x56, 0x3b, 0x9a, 0x19, 0xf3, 0x21, 0xc2, 0x11, 0xe9, 0xb9, 0xf3, 0x8c,
   0xdf, 0x68, 0x6e, 0xa0, 0x78, 0x45]

end OAT

namespace OAT

/-! ### Bit-level helper lemmas -/

theorem lor_lt_two_pow {a b k : Nat} (ha : a < 2 ^ k) (hb : b < 2 ^ k) : a ||| b < 2 ^ k :=
  Nat.bitwise_lt_two_pow ha hb

theorem shiftLeft_lor_distrib (a b k : Nat) : (a ||| b) <<< k = a <<< k ||| b <<< k := by
  apply Nat.eq_of_testBit_eq
  intro i
  simp only [Nat.testBit_shiftLeft, Nat.testBit_lor]
  by_cases h : k ≤ i <;> simp [h, Bool.and_or_distrib_left]

theorem mod_lor_div_shiftLeft (v k : Nat) : v % 2 ^ k ||| (v / 2 ^ k) <<< k = v := by
  apply Nat.eq_of_testBit_eq
  intro i
  simp only [Nat.testBit_lor, Nat.testBit_mod_two_pow, Nat.testBit_shiftLeft,
    ← Nat.shiftRight_eq_div_pow, Nat.testBit_shiftRight]
  by_cases h : i < k
  · simp [h, Nat.not_le.mpr h]
  · have h' : k ≤ i := Nat.not_lt.mp h
    simp [h, h', Nat.add_sub_cancel' h']

theorem and_127_eq_mod (b : Nat) : b &&& 127 = b % 128 := by
  have h := Nat.and_pow_two_sub_one_eq_mod b 7
  norm_num at h
  exact h

theorem and_128_of_lt {b : Nat} (h : b < 128) : b &&& 128 = 0 := by
  have h2 := Nat.and_two_pow b 7
  have h3 : b.testBit 7 = false := Nat.testBit_lt_two_pow (by norm_num at h ⊢; omega)
  norm_num [h3] at h2
  exact h2

theorem add_128_and_128 {a : Nat} (h : a < 128) : (a + 128) &&& 128 = 128 := by
  have h2 := Nat.and_two_pow (a + 128) 7
  have h4 : (a + 128) / 2 ^ 7 = 1 := by norm_num; omega
  have h3 : (a + 128).testBit 7 = true := by
    rw [Nat.testBit_to_div_mod, h4]
    decide
  norm_num [h3] at h2
  exact h2

theorem shiftLeft_lt {a k n : Nat} (h : a < 2 ^ (n - k)) (hk : k ≤ n) : a <<< k < 2 ^ n := by
  rw [Nat.shiftLeft_eq]
  calc a * 2 ^ k < 2 ^ (n - k) * 2 ^ k := by
        exact Nat.mul_lt_mul_of_lt_of_le h (Nat.le_refl _) (Nat.two_pow_pos k)
    _ = 2 ^ n := by rw [← Nat.pow_add]; congr 1; omega

/-! ### Unfolding equations for the recursive codec functions -/

theorem encodeLeb128_low {v : Nat} (h : v / 128 = 0) : encodeLeb128 v = [v % 128] := by
  rw [encodeLeb128]
  simp [h]

theorem encodeLeb128_high {v : Nat} (h : v / 128 ≠ 0) :
    encodeLeb128 v = (v % 128 + 128) :: encodeLeb128 (v / 128) := by
  rw [encodeLeb128]
  simp [h]

theorem decodeLeb128_cons (b : Nat) (rest : List Nat) (value offset : Nat) :
    decodeLeb128 (b :: rest) value offset =
      if 64 ≤ offset then .panicked
      else
        if b &&& 0x80 = 0 then .ok (value ||| (b &&& 0x7f) <<< offset % 2 ^ 64) rest
        else decodeLeb128 rest (value ||| (b &&& 0x7f) <<< offset % 2 ^ 64) (offset + 7) := rfl

/-! ### LEB128 round-trip -/

theorem decodeLeb128_encodeLeb128_general (v : Nat) :
    ∀ acc off rest, off ≤ 63 → v < 2 ^ (64 - off) → acc < 2 ^ off →
      decodeLeb128 (encodeLeb128 v ++ rest) acc off = .ok (acc ||| v <<< off) rest := by
  induction v using Nat.strong_induction_on with
  | _ v ih =>
    intro acc off rest hoff hv hacc
    by_cases h : v / 128 = 0
    · have hv128 : v < 128 := by omega
      have hmod : v % 128 = v := Nat.mod_eq_of_lt hv128
      rw [encodeLeb128_low h, hmod, List.cons_append, List.nil_append, decodeLeb128_cons]
      have hand : v &&& 127 = v := by rw [and_127_eq_mod, hmod]
      have hshift : v <<< off < 18446744073709551616 := by
        have hs := shiftLeft_lt hv (show off ≤ 64 by omega)
        norm_num at hs
        exact hs
      simp [if_neg (by omega : ¬ 64 ≤ off), hand,
        Nat.mod_eq_of_lt hshift, and_128_of_lt hv128]
    · have hv128 : 128 ≤ v := by
        by_contra hc
        push_neg at hc
        exact h (Nat.div_eq_of_lt hc)
      have hdlt : v / 128 < v := Nat.div_lt_self (by omega) (by norm_num)
      have hoff57 : off ≤ 56 := by
        by_contra hc
        push_neg at hc
        have : 2 ^ (64 - off) ≤ 2 ^ 7 := Nat.pow_le_pow_right (by norm_num) (by omega)
        norm_num at this
        omega
      rw [encodeLeb128_high h, List.cons_append, decodeLeb128_cons]
      have hm : v % 128 < 128 := Nat.mod_lt _ (by norm_num)
      have hand : (v % 128 + 128) &&& 127 = v % 128 := by
        rw [and_127_eq_mod]
        omega
      have hshift : (v % 128) <<< off < 2 ^ 64 := by
        apply shiftLeft_lt _ (by omega : off ≤ 64)
        calc v % 128 < 2 ^ 7 := by norm_num; omega
          _ ≤ 2 ^ (64 - off) := Nat.pow_le_pow_right (by norm_num) (by omega)
      simp only [if_neg (by omega : ¬ 64 ≤ off), hand, Nat.mod_eq_of_lt hshift,
        add_128_and_128 hm, if_neg (by norm_num : ¬ (128 : Nat) = 0)]
      have hdiv : v / 128 < 2 ^ (64 - (off + 7)) := by
        have h2 : (2 : Nat) ^ (64 - off) = 2 ^ (64 - (off + 7)) * 2 ^ 7 := by
          rw [← Nat.pow_add]
          congr 1
          omega
        rw [Nat.div_lt_iff_lt_mul (by norm_num : (0 : Nat) < 128)]
        calc v < 2 ^ (64 - off) := hv
          _ = 2 ^ (64 - (off + 7)) * 128 := by rw [h2]; norm_num
      have hacc' : acc ||| (v % 128) <<< off < 2 ^ (off + 7) := by
        apply lor_lt_two_pow
        · calc acc < 2 ^ off := hacc
            _ ≤ 2 ^ (off + 7) := Nat.pow_le_pow_right (by norm_num) (by omega)
        · exact shiftLeft_lt (by
            have hm7 : v % 128 < 2 ^ 7 := by norm_num; omega
            calc v % 128 < 2 ^ 7 := hm7
              _ ≤ 2 ^ (off + 7 - off) := by
                  apply Nat.pow_le_pow_right (by norm_num)
                  omega) (by omega)
      rw [ih (v / 128) hdlt _ (off + 7) rest (by omega) hdiv hacc']
      congr 1
      rw [Nat.lor_assoc]
      congr 1
      calc (v % 128) <<< off ||| (v / 128) <<< (off + 7)
          = (v % 128) <<< off ||| ((v / 128) <<< 7) <<< off := by
            rw [show off + 7 = 7 + off by omega, Nat.shiftLeft_add]
        _ = (v % 128 ||| (v / 128) <<< 7) <<< off := (shiftLeft_lor_distrib _ _ _).symm
        _ = v <<< off := by
            congr 1
            have hml := mod_lor_div_shiftLeft v 7
            norm_num at hml
            exact hml

theorem decodeLeb128_encodeLeb128 (v : Nat) (hv : v < 2 ^ 64) (rest : List Nat) :
    decodeLeb128 (encodeLeb128 v ++ rest) 0 0 = .ok v rest := by
  have h := decodeLeb128_encodeLeb128_general v 0 0 rest (by omega) (by simpa using hv)
    (by norm_num)
  simpa using h

end OAT

namespace OAT

/-! ### VarInt round-trip -/

theorem decodeVarInt_encodeVarInt (n : Nat) (hn : n < 2 ^ 64) (rest : List Nat) :
    decodeVarInt (encodeVarInt n ++ rest) = .ok n rest := by
  rw [encodeVarInt]
  by_cases h1 : n < 0xFD
  · simp only [if_pos h1, List.cons_append, List.nil_append, decodeVarInt, readU8]
    have e1 : ¬ n = 0xFF := by omega
    have e2 : ¬ n = 0xFE := by omega
    have e3 : ¬ n = 0xFD := by omega
    simp [e1, e2, e3]
  · by_cases h2 : n ≤ 0xFFFF
    · have hx : n % 256 + 256 * (n / 256 % 256) = n := by omega
      simp only [if_neg h1, if_pos h2, u16LE, List.cons_append, List.nil_append,
        decodeVarInt, readU8, readU16, hx]
      norm_num
    · by_cases h3 : n ≤ 0xFFFFFFFF
      · have hx : n % 256 + 256 * (n / 256 % 256) + 65536 * (n / 65536 % 256)
            + 16777216 * (n / 16777216 % 256) = n := by omega
        simp only [if_neg h1, if_neg h2, if_pos h3, u32LE, List.cons_append, List.nil_append,
          decodeVarInt, readU8, readU32, hx]
        norm_num
        omega
      · have hx : n % 4294967296 % 256 + 256 * (n % 4294967296 / 256 % 256)
            + 65536 * (n % 4294967296 / 65536 % 256)
            + 16777216 * (n % 4294967296 / 16777216 % 256)
            + 4294967296 * (n / 4294967296 % 4294967296 % 256
              + 256 * (n / 4294967296 % 4294967296 / 256 % 256)
              + 65536 * (n / 4294967296 % 4294967296 / 65536 % 256)
              + 16777216 * (n / 4294967296 % 4294967296 / 16777216 % 256)) = n := by
          omega
        simp only [if_neg h1, if_neg h2, if_neg h3, u64LE, u32LE, List.cons_append,
          List.nil_append, List.append_assoc, decodeVarInt, readU8, readU64, hx]
        norm_num
        omega

end OAT

namespace OAT

/-! ### Quantities, metadata and payload round-trips -/

theorem decodeQuantities_encode (qs : List Nat) (hq : ∀ q ∈ qs, q < 2 ^ 64)
    (rest : List Nat) :
    decodeQuantities qs.length ((qs.map encodeLeb128).flatten ++ rest) = .ok qs rest := by
  induction qs generalizing rest with
  | nil => simp [decodeQuantities]
  | cons q qs ih =>
    have hq0 : q < 2 ^ 64 := hq q (List.mem_cons_self q qs)
    have hqs : ∀ x ∈ qs, x < 2 ^ 64 := fun x hx => hq x (List.mem_cons_of_mem q hx)
    simp only [List.length_cons, List.map_cons, List.flatten_cons, List.append_assoc,
      decodeQuantities, decodeLeb128_encodeLeb128 q hq0, ih hqs rest]

theorem metadata_decode_encode (m : Metadata) (hm : m.data.length ≤ MAX_VEC_SIZE)
    (rest : List Nat) :
    Metadata.consensus_decode (m.consensus_encode ++ rest) = .ok m rest := by
  have hlen : m.data.length < 2 ^ 64 := by
    have : MAX_VEC_SIZE < 2 ^ 64 := by norm_num [MAX_VEC_SIZE]
    omega
  have hmod : m.data.length % 2 ^ 64 = m.data.length := Nat.mod_eq_of_lt hlen
  rw [Metadata.consensus_encode, hmod, List.append_assoc, Metadata.consensus_decode,
    decodeVarInt_encodeVarInt _ hlen]
  simp only [if_neg (by omega : ¬ MAX_VEC_SIZE < m.data.length), readSlice,
    if_pos (by simp : m.data.length ≤ (m.data ++ rest).length),
    List.take_append_of_le_length (Nat.le_refl _),
    List.drop_append_of_le_length (Nat.le_refl _)]
  simp

theorem payload_decode_encode (p : Payload) (hq : ∀ q ∈ p.quantities, q < 2 ^ 64)
    (hlen : p.quantities.length < 2 ^ 64) (hm : p.metadata.data.length ≤ MAX_VEC_SIZE)
    (rest : List Nat) :
    Payload.consensus_decode (p.consensus_encode ++ rest) = .ok p rest := by
  have hmarker : u16LE (swap16 MARKER) = [0x4f, 0x41] := by decide
  have hversion : u16LE (swap16 VERSION) = [0x01, 0x00] := by decide
  have hmod : p.quantities.length % 2 ^ 64 = p.quantities.length := Nat.mod_eq_of_lt hlen
  rw [Payload.consensus_encode, hmarker, hversion, hmod]
  rw [Payload.consensus_decode]
  simp only [List.cons_append, List.nil_append, List.append_assoc, readU16]
  norm_num [swap16, MARKER, VERSION]
  rw [decodeVarInt_encodeVarInt _ hlen]
  dsimp only
  rw [decodeQuantities_encode _ hq]
  dsimp only
  rw [metadata_decode_encode _ hm]

/-! ### Stream extension: a successful decode is preserved by appending
extra bytes after the stream, consuming the same prefix -/

theorem readU8_extend {l extra : List Nat} {v : Nat} {leftover : List Nat}
    (h : readU8 l = .ok v leftover) : readU8 (l ++ extra) = .ok v (leftover ++ extra) := by
  cases l with
  | nil => simp [readU8] at h
  | cons b rest =>
    simp only [readU8, DecResult.ok.injEq] at h
    simp [readU8, h.1, h.2]

theorem readU16_extend {l extra : List Nat} {v : Nat} {leftover : List Nat}
    (h : readU16 l = .ok v leftover) : readU16 (l ++ extra) = .ok v (leftover ++ extra) := by
  match l with
  | [] => simp [readU16] at h
  | [b0] => simp [readU16] at h
  | b0 :: b1 :: rest =>
    simp only [readU16, DecResult.ok.injEq] at h
    simp [readU16, h.1, h.2]

theorem readU32_extend {l extra : List Nat} {v : Nat} {leftover : List Nat}
    (h : readU32 l = .ok v leftover) : readU32 (l ++ extra) = .ok v (leftover ++ extra) := by
  match l with
  | [] => simp [readU32] at h
  | [b0] => simp [readU32] at h
  | [b0, b1] => simp [readU32] at h
  | [b0, b1, b2] => simp [readU32] at h
  | b0 :: b1 :: b2 :: b3 :: rest =>
    simp only [readU32, DecResult.ok.injEq] at h
    simp [readU32, h.1, h.2]

theorem readU64_extend {l extra : List Nat} {v : Nat} {leftover : List Nat}
    (h : readU64 l = .ok v leftover) : readU64 (l ++ extra) = .ok v (leftover ++ extra) := by
  match l with
  | [] => simp [readU64] at h
  | [b0] => simp [readU64] at h
  | [b0, b1] => simp [readU64] at h
  | [b0, b1, b2] => simp [readU64] at h
  | [b0, b1, b2, b3] => simp [readU64] at h
  | [b0, b1, b2, b3, b4] => simp [readU64] at h
  | [b0, b1, b2, b3, b4, b5] => simp [readU64] at h
  | [b0, b1, b2, b3, b4, b5, b6] => simp [readU64] at h
  | b0 :: b1 :: b2 :: b3 :: b4 :: b5 :: b6 :: b7 :: rest =>
    simp only [readU64, DecResult.ok.injEq] at h
    simp [readU64, h.1, h.2]

theorem readSlice_extend {n : Nat} {l extra : List Nat} {v leftover : List Nat}
    (h : readSlice n l = .ok v leftover) :
    readSlice n (l ++ extra) = .ok v (leftover ++ extra) := by
  by_cases hn : n ≤ l.length
  · simp only [readSlice, if_pos hn, DecResult.ok.injEq] at h
    simp only [readSlice, if_pos (by simp; omega : n ≤ (l ++ extra).length),
      List.take_append_of_le_length hn, List.drop_append_of_le_length hn,
      DecResult.ok.injEq]
    exact ⟨h.1, by rw [← h.2]⟩
  · simp [readSlice, if_neg hn] at h

theorem decodeVarInt_extend {l extra : List Nat} {v : Nat} {leftover : List Nat}
    (h : decodeVarInt l = .ok v leftover) :
    decodeVarInt (l ++ extra) = .ok v (leftover ++ extra) := by
  rw [decodeVarInt] at h
  rw [decodeVarInt]
  cases hr : readU8 l with
  | err e => rw [hr] at h; simp at h
  | panicked => rw [hr] at h; simp at h
  | ok n rest =>
    rw [hr] at h
    rw [readU8_extend hr]
    by_cases h255 : n = 0xFF
    · simp only [if_pos h255] at h ⊢
      cases hr64 : readU64 rest with
      | err e => rw [hr64] at h; simp at h
      | panicked => rw [hr64] at h; simp at h
      | ok x rest' =>
        rw [hr64] at h
        rw [readU64_extend hr64]
        by_cases hmin : x < 0x100000000
        · simp [if_pos hmin] at h
        · simp only [if_neg hmin, DecResult.ok.injEq] at h ⊢
          exact ⟨h.1, by rw [h.2]⟩
    · simp only [if_neg h255] at h ⊢
      by_cases h254 : n = 0xFE
      · simp only [if_pos h254] at h ⊢
        cases hr32 : readU32 rest with
        | err e => rw [hr32] at h; simp at h
        | panicked => rw [hr32] at h; simp at h
        | ok x rest' =>
          rw [hr32] at h
          rw [readU32_extend hr32]
          by_cases hmin : x < 0x10000
          · simp [if_pos hmin] at h
          · simp only [if_neg hmin, DecResult.ok.injEq] at h ⊢
            exact ⟨h.1, by rw [h.2]⟩
      · simp only [if_neg h254] at h ⊢
        by_cases h253 : n = 0xFD
        · simp only [if_pos h253] at h ⊢
          cases hr16 : readU16 rest with
          | err e => rw [hr16] at h; simp at h
          | panicked => rw [hr16] at h; simp at h
          | ok x rest' =>
            rw [hr16] at h
            rw [readU16_extend hr16]
            by_cases hmin : x < 0xFD
            · simp [if_pos hmin] at h
            · simp only [if_neg hmin, DecResult.ok.injEq] at h ⊢
              exact ⟨h.1, by rw [h.2]⟩
        · simp only [if_neg h253, DecResult.ok.injEq] at h ⊢
          exact ⟨h.1, by rw [h.2]⟩

theorem decodeLeb128_extend {l : List Nat} :
    ∀ {value offset : Nat} {extra : List Nat} {v : Nat} {leftover : List Nat},
    decodeLeb128 l value offset = .ok v leftover →
    decodeLeb128 (l ++ extra) value offset = .ok v (leftover ++ extra) := by
  induction l with
  | nil => intro value offset extra v leftover h; simp [decodeLeb128] at h
  | cons b rest ih =>
    intro value offset extra v leftover h
    rw [decodeLeb128_cons] at h
    rw [List.cons_append, decodeLeb128_cons]
    by_cases hoff : 64 ≤ offset
    · simp [if_pos hoff] at h
    · simp only [if_neg hoff] at h ⊢
      by_cases hbit : b &&& 0x80 = 0
      · simp only [if_pos hbit, DecResult.ok.injEq] at h ⊢
        exact ⟨h.1, by rw [h.2]⟩
      · simp only [if_neg hbit] at h ⊢
        exact ih h

theorem decodeQuantities_extend {count : Nat} :
    ∀ {l extra : List Nat} {vs : List Nat} {leftover : List Nat},
    decodeQuantities count l = .ok vs leftover →
    decodeQuantities count (l ++ extra) = .ok vs (leftover ++ extra) := by
  induction count with
  | zero =>
    intro l extra vs leftover h
    simp only [decodeQuantities, DecResult.ok.injEq] at h ⊢
    exact ⟨h.1, by rw [h.2]⟩
  | succ n ih =>
    intro l extra vs leftover h
    rw [decodeQuantities] at h
    rw [decodeQuantities]
    cases hr : decodeLeb128 l 0 0 with
    | err e => rw [hr] at h; simp at h
    | panicked => rw [hr] at h; simp at h
    | ok q rest =>
      rw [hr] at h
      dsimp only at h
      rw [decodeLeb128_extend hr]
      dsimp only
      cases hq : decodeQuantities n rest with
      | err e => rw [hq] at h; simp at h
      | panicked => rw [hq] at h; simp at h
      | ok qs rest' =>
        rw [hq] at h
        rw [ih hq]
        simp only [DecResult.ok.injEq] at h ⊢
        exact ⟨h.1, by rw [h.2]⟩

theorem metadata_decode_extend {l extra : List Nat} {m : Metadata} {leftover : List Nat}
    (h : Metadata.consensus_decode l = .ok m leftover) :
    Metadata.consensus_decode (l ++ extra) = .ok m (leftover ++ extra) := by
  rw [Metadata.consensus_decode] at h
  rw [Metadata.consensus_decode]
  cases hr : decodeVarInt l with
  | err e => rw [hr] at h; simp at h
  | panicked => rw [hr] at h; simp at h
  | ok len rest =>
    rw [hr] at h
    rw [decodeVarInt_extend hr]
    by_cases hmax : MAX_VEC_SIZE < len
    · simp [if_pos hmax] at h
    · simp only [if_neg hmax] at h ⊢
      cases hs : readSlice len rest with
      | err e => rw [hs] at h; simp at h
      | panicked => rw [hs] at h; simp at h
      | ok bytes rest' =>
        rw [hs] at h
        rw [readSlice_extend hs]
        simp only [DecResult.ok.injEq] at h ⊢
        exact ⟨h.1, by rw [h.2]⟩

theorem payload_decode_extend {l extra : List Nat} {p : Payload} {leftover : List Nat}
    (h : Payload.consensus_decode l = .ok p leftover) :
    Payload.consensus_decode (l ++ extra) = .ok p (leftover ++ extra) := by
  rw [Payload.consensus_decode] at h
  rw [Payload.consensus_decode]
  cases hr : readU16 l with
  | err e => rw [hr] at h; simp at h
  | panicked => rw [hr] at h; simp at h
  | ok marker rest =>
    rw [hr] at h
    rw [readU16_extend hr]
    by_cases hm : marker ≠ swap16 MARKER
    · simp [if_pos hm] at h
    · simp only [if_neg hm] at h ⊢
      cases hv : readU16 rest with
      | err e => rw [hv] at h; simp at h
      | panicked => rw [hv] at h; simp at h
      | ok version rest' =>
        rw [hv] at h
        rw [readU16_extend hv]
        by_cases hver : version ≠ swap16 VERSION
        · simp [if_pos hver] at h
        · simp only [if_neg hver] at h ⊢
          cases hc : decodeVarInt rest' with
          | err e => rw [hc] at h; simp at h
          | panicked => rw [hc] at h; simp at h
          | ok count rest'' =>
            rw [hc] at h
            dsimp only at h
            rw [decodeVarInt_extend hc]
            dsimp only
            cases hq : decodeQuantities count rest'' with
            | err e => rw [hq] at h; simp at h
            | panicked => rw [hq] at h; simp at h
            | ok qs rest''' =>
              rw [hq] at h
              dsimp only at h
              rw [decodeQuantities_extend hq]
              dsimp only
              cases hmd : Metadata.consensus_decode rest''' with
              | err e => rw [hmd] at h; simp at h
              | panicked => rw [hmd] at h; simp at h
              | ok md rest'''' =>
                rw [hmd] at h
                dsimp only at h
                rw [metadata_decode_extend hmd]
                dsimp only
                simp only [DecResult.ok.injEq] at h ⊢
                exact ⟨h.1, by rw [h.2]⟩

end OAT

namespace OAT

/-! ### Error-path helper lemmas for the decoder -/

theorem decode_header (t : List Nat) :
    Payload.consensus_decode (0x4f :: 0x41 :: 0x01 :: 0x00 :: t) =
      match decodeVarInt t with
      | .err e => .err e
      | .panicked => .panicked
      | .ok count rest =>
        match decodeQuantities count rest with
        | .err e => .err e
        | .panicked => .panicked
        | .ok qs rest' =>
          match Metadata.consensus_decode rest' with
          | .err e => .err e
          | .panicked => .panicked
          | .ok md rest'' => .ok ⟨qs, md⟩ rest'' := by
  rfl

theorem decode_count0 (t : List Nat) :
    Payload.consensus_decode (0x4f :: 0x41 :: 0x01 :: 0x00 :: 0x00 :: t) =
      match Metadata.consensus_decode t with
      | .err e => .err e
      | .panicked => .panicked
      | .ok md rest => .ok ⟨[], md⟩ rest := by
  rfl

end OAT

namespace OAT

theorem decode_len_lt_two {s : List Nat} (h : s.length < 2) :
    Payload.consensus_decode s = .err .truncated := by
  match s with
  | [] => rfl
  | [b] => rfl
  | b0 :: b1 :: t => simp only [List.length_cons] at h; omega

theorem decode_cons2 (b0 b1 : Nat) (t : List Nat) :
    Payload.consensus_decode (b0 :: b1 :: t) =
      if b0 + 256 * b1 ≠ swap16 MARKER then .err .invalidMarker
      else
        match readU16 t with
        | .err e => .err e
        | .panicked => .panicked
        | .ok version rest =>
          if version ≠ swap16 VERSION then .err .invalidVersion
          else
            match decodeVarInt rest with
            | .err e => .err e
            | .panicked => .panicked
            | .ok count rest' =>
              match decodeQuantities count rest' with
              | .err e => .err e
              | .panicked => .panicked
              | .ok qs rest'' =>
                match Metadata.consensus_decode rest'' with
                | .err e => .err e
                | .panicked => .panicked
                | .ok md rest''' => .ok ⟨qs, md⟩ rest''' := by
  rfl

theorem decode_bad_marker {b0 b1 : Nat} (h0 : b0 < 256) (h1 : b1 < 256)
    (hne : ¬ (b0 = 0x4f ∧ b1 = 0x41)) (t : List Nat) :
    Payload.consensus_decode (b0 :: b1 :: t) = .err .invalidMarker := by
  have hs : swap16 MARKER = 16719 := by decide
  have hm : b0 + 256 * b1 ≠ swap16 MARKER := by
    rw [hs]
    omega
  rw [decode_cons2, if_pos hm]

theorem decode_version_short {t : List Nat} (h : t.length < 2) :
    Payload.consensus_decode (0x4f :: 0x41 :: t) = .err .truncated := by
  match t with
  | [] => rfl
  | [b] => rfl
  | b0 :: b1 :: t' => simp only [List.length_cons] at h; omega

theorem decode_cons4 (v0 v1 : Nat) (t : List Nat) :
    Payload.consensus_decode (0x4f :: 0x41 :: v0 :: v1 :: t) =
      if v0 + 256 * v1 ≠ swap16 VERSION then .err .invalidVersion
      else
        match decodeVarInt t with
        | .err e => .err e
        | .panicked => .panicked
        | .ok count rest' =>
          match decodeQuantities count rest' with
          | .err e => .err e
          | .panicked => .panicked
          | .ok qs rest'' =>
            match Metadata.consensus_decode rest'' with
            | .err e => .err e
            | .panicked => .panicked
            | .ok md rest''' => .ok ⟨qs, md⟩ rest''' := by
  rfl

theorem decode_bad_version {v0 v1 : Nat} (h0 : v0 < 256) (h1 : v1 < 256)
    (hne : ¬ (v0 = 0x01 ∧ v1 = 0x00)) (t : List Nat) :
    Payload.consensus_decode (0x4f :: 0x41 :: v0 :: v1 :: t) = .err .invalidVersion := by
  have hs : swap16 VERSION = 1 := by decide
  have hv : v0 + 256 * v1 ≠ swap16 VERSION := by
    rw [hs]
    omega
  rw [decode_cons4, if_pos hv]

theorem decode_count_varint_err {t : List Nat} {e : DecodeError}
    (h : decodeVarInt t = .err e) :
    Payload.consensus_decode (0x4f :: 0x41 :: 0x01 :: 0x00 :: t) = .err e := by
  rw [decode_header, h]

theorem decode_metadata_varint_err {t : List Nat} {e : DecodeError}
    (h : decodeVarInt t = .err e) :
    Payload.consensus_decode (0x4f :: 0x41 :: 0x01 :: 0x00 :: 0x00 :: t) = .err e := by
  rw [decode_count0, Metadata.consensus_decode, h]

theorem decode_metadata_short {L : Nat} {rest : List Nat} (hL : L ≤ 4000000)
    (hrest : rest.length < L) :
    Payload.consensus_decode (0x4f :: 0x41 :: 0x01 :: 0x00 :: 0x00 :: (encodeVarInt L ++ rest))
      = .err .truncated := by
  have hL64 : L < 2 ^ 64 := by
    have : (4000000 : Nat) < 2 ^ 64 := by norm_num
    omega
  rw [decode_count0, Metadata.consensus_decode, decodeVarInt_encodeVarInt L hL64]
  dsimp only
  rw [if_neg (by simp only [MAX_VEC_SIZE]; omega)]
  rw [readSlice, if_neg (by omega)]

theorem decode_metadata_oversized {L : Nat} {rest : List Nat} (hbig : 4000000 < L)
    (hL64 : L < 2 ^ 64) :
    Payload.consensus_decode (0x4f :: 0x41 :: 0x01 :: 0x00 :: 0x00 :: (encodeVarInt L ++ rest))
      = .err (.oversizedVector L) := by
  rw [decode_count0, Metadata.consensus_decode, decodeVarInt_encodeVarInt L hL64]
  dsimp only
  rw [if_pos (by simp only [MAX_VEC_SIZE]; omega)]

theorem decode_leb_eof {k : Nat} (hk : k ≤ 10) :
    Payload.consensus_decode ((0x4f :: 0x41 :: 0x01 :: 0x00 :: 0x01 :: List.replicate k 0x80))
      = .err .truncated := by
  interval_cases k <;> decide

theorem encode_empty_quantities (md : Metadata) :
    Payload.consensus_encode ⟨[], md⟩ =
      0x4f :: 0x41 :: 0x01 :: 0x00 :: 0x00 ::
        (encodeVarInt (md.data.length % 2 ^ 64) ++ md.data) := by
  rfl

end OAT

namespace OAT

/-! ### Address pre-checksum buffer computations -/

theorem copyFromSlice_plain (z : Nat) (hash : List Nat) (h20 : hash.length = 20) :
    copyFromSlice (19 :: z :: List.replicate 20 0) 2 hash = 19 :: z :: hash := by
  simp only [copyFromSlice, h20]
  norm_num

theorem copyFromSlice_colored (z : Nat) (colorId hash : List Nat)
    (h33 : colorId.length = 33) (h20 : hash.length = 20) :
    copyFromSlice (copyFromSlice (19 :: z :: List.replicate 53 0) 2 colorId) 35 hash
      = 19 :: z :: (colorId ++ hash) := by
  simp only [copyFromSlice, h33, h20]
  norm_num
  rw [List.take_left' h33, List.drop_eq_nil_of_le (by simp [h33])]
  simp

theorem preChecksum_pubkeyHash (n : Network) (hash : List Nat) (h20 : hash.length = 20) :
    Address.preChecksum ⟨n, .pubkeyHash hash⟩
      = 0x13 :: (match n with | .prod => 0 | .dev => 111) :: hash := by
  cases n <;>
    exact copyFromSlice_plain _ hash h20

theorem preChecksum_scriptHash (n : Network) (hash : List Nat) (h20 : hash.length = 20) :
    Address.preChecksum ⟨n, .scriptHash hash⟩
      = 0x13 :: (match n with | .prod => 5 | .dev => 196) :: hash := by
  cases n <;>
    exact copyFromSlice_plain _ hash h20

theorem preChecksum_coloredPubkeyHash (n : Network) (colorId hash : List Nat)
    (h33 : colorId.length = 33) (h20 : hash.length = 20) :
    Address.preChecksum ⟨n, .coloredPubkeyHash colorId hash⟩
      = 0x13 :: (match n with | .prod => 1 | .dev => 112) :: (colorId ++ hash) := by
  cases n <;>
    exact copyFromSlice_colored _ colorId hash h33 h20

theorem preChecksum_coloredScriptHash (n : Network) (colorId hash : List Nat)
    (h33 : colorId.length = 33) (h20 : hash.length = 20) :
    Address.preChecksum ⟨n, .coloredScriptHash colorId hash⟩
      = 0x13 :: (match n with | .prod => 6 | .dev => 197) :: (colorId ++ hash) := by
  cases n <;>
    exact copyFromSlice_colored _ colorId hash h33 h20

end OAT

namespace OAT

/-! ### Error classification for the varint decoder -/

theorem readU8_err {l : List Nat} {e : DecodeError} (h : readU8 l = .err e) :
    e = .truncated := by
  cases l with
  | nil => simp only [readU8, DecResult.err.injEq] at h; exact h.symm
  | cons b rest => simp [readU8] at h

theorem readU16_err {l : List Nat} {e : DecodeError} (h : readU16 l = .err e) :
    e = .truncated := by
  match l with
  | [] => simp only [readU16, DecResult.err.injEq] at h; exact h.symm
  | [b] => simp only [readU16, DecResult.err.injEq] at h; exact h.symm
  | b0 :: b1 :: t => simp [readU16] at h

theorem readU32_err {l : List Nat} {e : DecodeError} (h : readU32 l = .err e) :
    e = .truncated := by
  match l with
  | [] => simp only [readU32, DecResult.err.injEq] at h; exact h.symm
  | [b] => simp only [readU32, DecResult.err.injEq] at h; exact h.symm
  | [b0, b1] => simp only [readU32, DecResult.err.injEq] at h; exact h.symm
  | [b0, b1, b2] => simp only [readU32, DecResult.err.injEq] at h; exact h.symm
  | b0 :: b1 :: b2 :: b3 :: t => simp [readU32] at h

theorem readU64_err {l : List Nat} {e : DecodeError} (h : readU64 l = .err e) :
    e = .truncated := by
  match l with
  | [] => simp only [readU64, DecResult.err.injEq] at h; exact h.symm
  | [b] => simp only [readU64, DecResult.err.injEq] at h; exact h.symm
  | [b0, b1] => simp only [readU64, DecResult.err.injEq] at h; exact h.symm
  | [b0, b1, b2] => simp only [readU64, DecResult.err.injEq] at h; exact h.symm
  | [b0, b1, b2, b3] => simp only [readU64, DecResult.err.injEq] at h; exact h.symm
  | [b0, b1, b2, b3, b4] => simp only [readU64, DecResult.err.injEq] at h; exact h.symm
  | [b0, b1, b2, b3, b4, b5] => simp only [readU64, DecResult.err.injEq] at h; exact h.symm
  | [b0, b1, b2, b3, b4, b5, b6] =>
    simp only [readU64, DecResult.err.injEq] at h; exact h.symm
  | b0 :: b1 :: b2 :: b3 :: b4 :: b5 :: b6 :: b7 :: t => simp [readU64] at h

theorem decodeVarInt_err_cases {t : List Nat} {e : DecodeError}
    (h : decodeVarInt t = .err e) : e = .truncated ∨ e = .nonMinimalVarInt := by
  rw [decodeVarInt] at h
  cases hr : readU8 t with
  | panicked => rw [hr] at h; simp at h
  | err e' =>
    rw [hr] at h
    simp only [DecResult.err.injEq] at h
    exact Or.inl (h ▸ readU8_err hr)
  | ok n rest =>
    rw [hr] at h
    dsimp only at h
    by_cases h255 : n = 0xFF
    · rw [if_pos h255] at h
      cases hv : readU64 rest with
      | panicked => rw [hv] at h; simp at h
      | err e' =>
        rw [hv] at h
        simp only [DecResult.err.injEq] at h
        exact Or.inl (h ▸ readU64_err hv)
      | ok x rest' =>
        rw [hv] at h
        dsimp only at h
        by_cases hmin : x < 0x100000000
        · rw [if_pos hmin] at h
          simp only [DecResult.err.injEq] at h
          exact Or.inr h.symm
        · rw [if_neg hmin] at h
          simp at h
    · rw [if_neg h255] at h
      by_cases h254 : n = 0xFE
      · rw [if_pos h254] at h
        cases hv : readU32 rest with
        | panicked => rw [hv] at h; simp at h
        | err e' =>
          rw [hv] at h
          simp only [DecResult.err.injEq] at h
          exact Or.inl (h ▸ readU32_err hv)
        | ok x rest' =>
          rw [hv] at h
          dsimp only at h
          by_cases hmin : x < 0x10000
          · rw [if_pos hmin] at h
            simp only [DecResult.err.injEq] at h
            exact Or.inr h.symm
          · rw [if_neg hmin] at h
            simp at h
      · rw [if_neg h254] at h
        by_cases h253 : n = 0xFD
        · rw [if_pos h253] at h
          cases hv : readU16 rest with
          | panicked => rw [hv] at h; simp at h
          | err e' =>
            rw [hv] at h
            simp only [DecResult.err.injEq] at h
            exact Or.inl (h ▸ readU16_err hv)
          | ok x rest' =>
            rw [hv] at h
            dsimp only at h
            by_cases hmin : x < 0xFD
            · rw [if_pos hmin] at h
              simp only [DecResult.err.injEq] at h
              exact Or.inr h.symm
            · rw [if_neg hmin] at h
              simp at h
        · rw [if_neg h253] at h
          simp at h

end OAT

namespace OAT

/-! ### Claim theorems -/

/-- C1 (counterexample): the round-trip claim quantifies over every
metadata byte sequence, but the Vec decoder of the consensus framework
rejects declared lengths above MAX_VEC_SIZE = 4000000, so a payload
with a 4000001-byte metadata blob encodes successfully and then fails
to decode with an oversized-allocation error instead of yielding the
payload back. -/
theorem C1_roundtrip_counterexample :
    Payload.consensus_decode
        (Payload.consensus_encode ⟨[], ⟨List.replicate 4000001 0⟩⟩)
      = .err (.oversizedVector 4000001) := by
  rw [encode_empty_quantities]
  rw [show (Metadata.mk (List.replicate 4000001 0)).data.length % 2 ^ 64 = 4000001 by
    rw [show (Metadata.mk (List.replicate 4000001 (0 : Nat))).data
          = List.replicate 4000001 0 from rfl,
        List.length_replicate]
    exact Nat.mod_eq_of_lt (by norm_num)]
  exact decode_metadata_oversized (by norm_num) (by norm_num)

/-- C1 (amended): decoding the encoding of a payload yields exactly the
payload (with the whole input consumed), for every payload whose
quantities are u64 values, whose quantity count fits in a u64, and
whose metadata is at most MAX_VEC_SIZE = 4000000 bytes long. -/
theorem C1_decode_encode_roundtrip (p : Payload)
    (hq : ∀ q ∈ p.quantities, q < 2 ^ 64)
    (hcount : p.quantities.length < 2 ^ 64)
    (hmd : p.metadata.data.length ≤ 4000000) :
    Payload.consensus_decode (Payload.consensus_encode p) = .ok p [] := by
  have h := payload_decode_encode p hq hcount (by simpa [MAX_VEC_SIZE] using hmd) []
  simpa using h

/-- C1 (witness): the round-trip theorem applied to the repository's
own LEB128 test vector, quantities 127, 128, 12857 with empty
metadata. -/
theorem C1_decode_encode_roundtrip_witness :
    Payload.consensus_decode (Payload.consensus_encode ⟨[127, 128, 12857], ⟨[]⟩⟩)
      = .ok ⟨[127, 128, 12857], ⟨[]⟩⟩ [] :=
  C1_decode_encode_roundtrip ⟨[127, 128, 12857], ⟨[]⟩⟩ (by decide) (by decide) (by decide)

/-- C2: the claim says decoding never panics for any input, naming ten
or more continuation bytes as the adversarial example; but on the
eleventh continuation byte of a quantity the accumulated shift offset
reaches 70 and the u64 shift overflows, which panics under Rust's
checked arithmetic (debug and fuzzing builds; a release build masks the
shift amount and silently accumulates a wrong value).  The decoder
model evaluates to the panic outcome on exactly such an input. -/
theorem C2_decode_leb128_shift_overflow :
    Payload.consensus_decode
        (0x4f :: 0x41 :: 0x01 :: 0x00 :: 0x01 :: List.replicate 11 0x80)
      = .panicked := by
  decide

/-- C3: trailing bytes are not a decode error for the stream decoder:
whenever a byte sequence decodes to a payload consuming the whole
input, the same sequence followed by any extra bytes still decodes to
that payload, with the extra bytes left unconsumed. -/
theorem C3_trailing_bytes_ok (p : Payload) (extra : List Nat)
    (h : Payload.consensus_decode (Payload.consensus_encode p) = .ok p []) :
    Payload.consensus_decode (Payload.consensus_encode p ++ extra) = .ok p extra := by
  simpa using @payload_decode_extend (Payload.consensus_encode p) extra p [] h

/-- C3 (witness): the trailing-bytes theorem applied to the
repository's empty-metadata test vector with two junk bytes
appended. -/
theorem C3_trailing_bytes_ok_witness :
    Payload.consensus_decode (Payload.consensus_encode ⟨[1, 68], ⟨[]⟩⟩ ++ [0xde, 0xad])
      = .ok ⟨[1, 68], ⟨[]⟩⟩ [0xde, 0xad] :=
  C3_trailing_bytes_ok ⟨[1, 68], ⟨[]⟩⟩ [0xde, 0xad]
    (by
      rw [show Payload.consensus_encode ⟨[1, 68], ⟨[]⟩⟩
            = [0x4f, 0x41, 0x01, 0x00, 0x02, 0x01, 0x44, 0x00] by
        simp [Payload.consensus_encode, Metadata.consensus_encode, encodeVarInt,
          encodeLeb128, u16LE, swap16, MARKER, VERSION]]
      decide)

/-- C4: the encoder emits the marker bytes 4f 41, the version bytes
01 00, a varint quantity count, each quantity in LEB128 (low 7 bits per
byte, high bit exactly when more bytes follow, zero as a single zero
byte), then the varint-length-prefixed metadata; and the documented
example with quantities 100, 0, 123 and the 27-byte URL metadata
produces exactly the documented byte string. -/
theorem C4_encode_layout :
    (∀ p : Payload,
      Payload.consensus_encode p
        = [0x4f, 0x41] ++ [0x01, 0x00]
          ++ encodeVarInt (p.quantities.length % 2 ^ 64)
          ++ (p.quantities.map encodeLeb128).flatten
          ++ (encodeVarInt (p.metadata.data.length % 2 ^ 64) ++ p.metadata.data))
    ∧ (∀ v : Nat, v < 128 → encodeLeb128 v = [v])
    ∧ (∀ v : Nat, 128 ≤ v → encodeLeb128 v = (v % 128 + 128) :: encodeLeb128 (v / 128))
    ∧ encodeLeb128 0 = [0]
    ∧ Payload.consensus_encode ⟨[100, 0, 123], ⟨metaUrl⟩⟩
        = [0x4f, 0x41, 0x01, 0x00, 0x03, 0x64, 0x00, 0x7b, 0x1b] ++ metaUrl := by
  refine ⟨fun p => rfl, fun v hv => ?_, fun v hv => ?_, ?_, ?_⟩
  · rw [encodeLeb128_low (Nat.div_eq_of_lt hv), Nat.mod_eq_of_lt hv]
  · exact encodeLeb128_high (by
      intro h0
      have := Nat.div_eq_of_lt (show v < 128 by
        by_contra hc
        push_neg at hc
        have : 1 ≤ v / 128 := Nat.one_le_div_iff (by norm_num) |>.mpr hc
        omega)
      omega)
  · rw [encodeLeb128_low (by norm_num)]
  · simp [Payload.consensus_encode, Metadata.consensus_encode, encodeVarInt,
      encodeLeb128, u16LE, swap16, MARKER, VERSION, metaUrl]

/-- C4 (witness): the LEB128 shape clauses instantiated at the
boundary values 127 and 128. -/
theorem C4_encode_layout_witness :
    encodeLeb128 127 = [127] ∧ encodeLeb128 128 = [0 + 128] ++ encodeLeb128 1 :=
  ⟨C4_encode_layout.2.1 127 (by norm_num),
   by rw [C4_encode_layout.2.2.1 128 (by norm_num)]; norm_num⟩

end OAT

namespace OAT

/-- C5 (counterexample): the claim says fewer remaining bytes than the
declared metadata length yields Truncated, but for a declared length
above MAX_VEC_SIZE the decoder reports the oversized-allocation error
before looking at the remaining bytes: marker, version, count 0, then
a varint declaring 5000000 metadata bytes with none following decodes
to the oversized error, not to Truncated. -/
theorem C5_oversized_not_truncated :
    Payload.consensus_decode [0x4f, 0x41, 0x01, 0x00, 0x00, 0xfe, 0x40, 0x4b, 0x4c, 0x00]
      = .err (.oversizedVector 5000000)
    ∧ DecodeError.oversizedVector 5000000 ≠ DecodeError.truncated :=
  ⟨by decide, by decide⟩

/-- C5 (amended): decode validates in order with a distinct error for
each failure — too few bytes for the marker yields Truncated, a marker
byte-pair other than 4f 41 yields InvalidMarker, too few bytes for the
version yields Truncated, a version byte-pair other than 01 00 yields
InvalidVersion, a failing count varint propagates its error (always
Truncated or NonMinimalVarInt), a quantity LEB128 stream that ends
before a clear high bit yields Truncated while fewer than eleven bytes
of the quantity have been read (an eleventh byte overflows the checked
shift instead, see C2), a failing metadata length varint propagates its
error likewise, fewer remaining bytes than a declared metadata length
of at most MAX_VEC_SIZE yields Truncated, a declared metadata length
above MAX_VEC_SIZE yields the oversized-allocation error instead, and
an error result never carries a payload. -/
theorem C5_decode_validation :
    (∀ s : List Nat, s.length < 2 → Payload.consensus_decode s = .err .truncated)
    ∧ (∀ b0 b1 : Nat, ∀ t : List Nat, b0 < 256 → b1 < 256 → ¬ (b0 = 0x4f ∧ b1 = 0x41) →
        Payload.consensus_decode (b0 :: b1 :: t) = .err .invalidMarker)
    ∧ (∀ t : List Nat, t.length < 2 →
        Payload.consensus_decode (0x4f :: 0x41 :: t) = .err .truncated)
    ∧ (∀ v0 v1 : Nat, ∀ t : List Nat, v0 < 256 → v1 < 256 → ¬ (v0 = 0x01 ∧ v1 = 0x00) →
        Payload.consensus_decode (0x4f :: 0x41 :: v0 :: v1 :: t) = .err .invalidVersion)
    ∧ (∀ (t : List Nat) (e : DecodeError), decodeVarInt t = .err e →
        Payload.consensus_decode (0x4f :: 0x41 :: 0x01 :: 0x00 :: t) = .err e
        ∧ (e = .truncated ∨ e = .nonMinimalVarInt))
    ∧ (∀ k : Nat, k ≤ 10 →
        Payload.consensus_decode
          (0x4f :: 0x41 :: 0x01 :: 0x00 :: 0x01 :: List.replicate k 0x80) = .err .truncated)
    ∧ (∀ (t : List Nat) (e : DecodeError), decodeVarInt t = .err e →
        Payload.consensus_decode (0x4f :: 0x41 :: 0x01 :: 0x00 :: 0x00 :: t) = .err e
        ∧ (e = .truncated ∨ e = .nonMinimalVarInt))
    ∧ (∀ (L : Nat) (rest : List Nat), L ≤ 4000000 → rest.length < L →
        Payload.consensus_decode
          (0x4f :: 0x41 :: 0x01 :: 0x00 :: 0x00 :: (encodeVarInt L ++ rest))
          = .err .truncated)
    ∧ (∀ (L : Nat) (rest : List Nat), 4000000 < L → L < 2 ^ 64 →
        Payload.consensus_decode
          (0x4f :: 0x41 :: 0x01 :: 0x00 :: 0x00 :: (encodeVarInt L ++ rest))
          = .err (.oversizedVector L))
    ∧ (∀ (s : List Nat) (e : DecodeError), Payload.consensus_decode s = .err e →
        ∀ (p : Payload) (r : List Nat), Payload.consensus_decode s ≠ .ok p r) := by
  refine ⟨fun s hs => decode_len_lt_two hs,
    fun b0 b1 t h0 h1 hne => decode_bad_marker h0 h1 hne t,
    fun t ht => decode_version_short ht,
    fun v0 v1 t h0 h1 hne => decode_bad_version h0 h1 hne t,
    fun t e he => ⟨decode_count_varint_err he, decodeVarInt_err_cases he⟩,
    fun k hk => decode_leb_eof hk,
    fun t e he => ⟨decode_metadata_varint_err he, decodeVarInt_err_cases he⟩,
    fun L rest hL hr => decode_metadata_short hL hr,
    fun L rest hb h64 => decode_metadata_oversized hb h64,
    fun s e he p r => by rw [he]; simp⟩

/-- C5 (witness): the validation theorem applied to a wrong marker, a
wrong version, and the repository's truncated-count test vector ff. -/
theorem C5_decode_validation_witness :
    Payload.consensus_decode [0x4f, 0x42, 0x01, 0x00] = .err .invalidMarker
    ∧ Payload.consensus_decode [0x4f, 0x41, 0x02, 0x00, 0x00] = .err .invalidVersion
    ∧ Payload.consensus_decode [0x4f, 0x41, 0x01, 0x00, 0xff] = .err .truncated :=
  ⟨C5_decode_validation.2.1 0x4f 0x42 [0x01, 0x00] (by norm_num) (by norm_num) (by decide),
   C5_decode_validation.2.2.2.1 0x02 0x00 [0x00] (by norm_num) (by norm_num) (by decide),
   (C5_decode_validation.2.2.2.2.1 [0xff] .truncated (by decide)).1⟩

/-- C6: an output is an Open Assets marker exactly when its script is
an OP_RETURN script and the extracted push data deserializes as a
payload; every decode error value is turned into the boolean false
rather than propagated. -/
theorem C6_is_marker_iff (o : TxOut) :
    (o.is_openassets_marker = .ok true ↔
      (o.script_pubkey.is_op_return = true ∧ ∃ p, o.get_oa_payload = .ok p))
    ∧ (∀ e : DecodeError, o.get_oa_payload = .err e →
        o.is_openassets_marker = .ok false) := by
  constructor
  · rw [TxOut.is_openassets_marker]
    by_cases hop : o.script_pubkey.is_op_return
    · cases hp : o.get_oa_payload with
      | ok p => simp [hop, hp]
      | err e => simp [hop, hp]
      | panicked => simp [hop, hp]
    · simp [hop]
  · intro e he
    rw [TxOut.is_openassets_marker]
    by_cases hop : o.script_pubkey.is_op_return
    · simp [hop, he]
    · simp [hop]

/-- C6 (witness): the marker predicate theorem applied to a
non-OP_RETURN output, whose payload extraction fails with Truncated
and whose marker test is false. -/
theorem C6_is_marker_iff_witness :
    TxOut.is_openassets_marker ⟨0, ⟨[0x76]⟩⟩ = .ok false :=
  (C6_is_marker_iff ⟨0, ⟨[0x76]⟩⟩).2 .truncated (by decide)

/-- C7: the pre-checksum buffer of every address is the namespace byte
0x13, then the selector byte from the fixed (network, variant) table —
Production 0 / 5 / 1 / 6 and Development 111 / 196 / 112 / 197 — then
the 20-byte hash160 (plain) or the 33-byte color id followed by the
20-byte hash160 (colored), for a total of exactly 22 or 55 bytes. -/
theorem C7_preChecksum_layout (n : Network) (hash colorId : List Nat)
    (h20 : hash.length = 20) (h33 : colorId.length = 33) :
    (Address.preChecksum ⟨n, .pubkeyHash hash⟩
        = 0x13 :: (match n with | .prod => 0 | .dev => 111) :: hash
      ∧ (Address.preChecksum ⟨n, .pubkeyHash hash⟩).length = 22)
    ∧ (Address.preChecksum ⟨n, .scriptHash hash⟩
        = 0x13 :: (match n with | .prod => 5 | .dev => 196) :: hash
      ∧ (Address.preChecksum ⟨n, .scriptHash hash⟩).length = 22)
    ∧ (Address.preChecksum ⟨n, .coloredPubkeyHash colorId hash⟩
        = 0x13 :: (match n with | .prod => 1 | .dev => 112) :: (colorId ++ hash)
      ∧ (Address.preChecksum ⟨n, .coloredPubkeyHash colorId hash⟩).length = 55)
    ∧ (Address.preChecksum ⟨n, .coloredScriptHash colorId hash⟩
        = 0x13 :: (match n with | .prod => 6 | .dev => 197) :: (colorId ++ hash)
      ∧ (Address.preChecksum ⟨n, .coloredScriptHash colorId hash⟩).length = 55) := by
  refine ⟨⟨preChecksum_pubkeyHash n hash h20, ?_⟩,
    ⟨preChecksum_scriptHash n hash h20, ?_⟩,
    ⟨preChecksum_coloredPubkeyHash n colorId hash h33 h20, ?_⟩,
    ⟨preChecksum_coloredScriptHash n colorId hash h33 h20, ?_⟩⟩
  · rw [preChecksum_pubkeyHash n hash h20]
    simp [h20]
  · rw [preChecksum_scriptHash n hash h20]
    simp [h20]
  · rw [preChecksum_coloredPubkeyHash n colorId hash h33 h20]
    simp [h33, h20]
  · rw [preChecksum_coloredScriptHash n colorId hash h33 h20]
    simp [h33, h20]

/-- C7 (witness): the layout theorem applied to the production network
with the repository's test color id and hash. -/
theorem C7_preChecksum_layout_witness :
    Address.preChecksum ⟨.prod, .coloredPubkeyHash colorIdTest hashTest⟩
      = 0x13 :: 1 :: (colorIdTest ++ hashTest)
    ∧ (Address.preChecksum ⟨.prod, .coloredPubkeyHash colorIdTest hashTest⟩).length = 55 :=
  (C7_preChecksum_layout .prod hashTest colorIdTest (by decide) (by decide)).2.2.1

set_option maxRecDepth 200000 in
/-- C8: converting any payment address to its Open Assets counterpart
copies the network and payload verbatim and converting back restores
the original address exactly; the production pubkey-hash address
1F2AQr6oqNtcJQ6p9SiCLQTrHuM9en44H8 (hash160 hash1F, standard base58check
with version byte 0) formats in the Open Assets namespace as
akQz3f1v9JrnJAeGBC4pNzGNRdWXKan4U6E. -/
theorem C8_oa_address_roundtrip :
    (∀ a : TapyrusAddress,
      a.to_oa_address = .ok ⟨a.network, a.payload⟩
      ∧ Address.to_btc_addr ⟨a.network, a.payload⟩ = .ok a)
    ∧ Address.displayAscii ⟨.prod, .pubkeyHash hash1F⟩ = asciiAkQz
    ∧ TapyrusAddress.displayAscii ⟨.prod, .pubkeyHash hash1F⟩ = some ascii1F2A := by
  refine ⟨fun a => ⟨rfl, rfl⟩, by decide, by decide⟩

/-- C9 (counterexample): convert-to-plain applied to a colored address
does not strip the color identifier: the result still carries the
colored payload, which is not a plain payment payload, and the call
cannot fail. -/
theorem C9_to_btc_addr_keeps_color :
    Address.to_btc_addr ⟨.prod, .coloredPubkeyHash colorIdTest hashTest⟩
      = .ok ⟨.prod, .coloredPubkeyHash colorIdTest hashTest⟩
    ∧ AddrPayload.isPlain (.coloredPubkeyHash colorIdTest hashTest) = false :=
  ⟨rfl, rfl⟩

/-- C9 (amended): to_btc_addr returns the same network and the same
payload verbatim — the color identifier included — wrapped in Ok, and
never fails with any error. -/
theorem C9_to_btc_addr_identity :
    ∀ a : Address, a.to_btc_addr = .ok ⟨a.network, a.payload⟩ :=
  fun _ => rfl

/-- C10: the metadata Display implementation panics on metadata whose
bytes are not valid UTF-8 (the single byte ff suffices), and returns
the UTF-8 decoding for every metadata whose bytes are valid UTF-8. -/
theorem C10_metadata_display :
    Metadata.display ⟨[0xff]⟩ = .panicked
    ∧ (∀ (m : Metadata) (s : List Nat), utf8Decode m.data = some s →
        Metadata.display m = .ok s) := by
  refine ⟨by decide, fun m s h => ?_⟩
  rw [Metadata.display, h]

/-- C10 (witness): the display theorem applied to the repository's URL
metadata, which is valid UTF-8 and displays as itself. -/
theorem C10_metadata_display_witness :
    Metadata.display ⟨metaUrl⟩ = .ok metaUrl :=
  C10_metadata_display.2 ⟨metaUrl⟩ metaUrl (by decide)

end OAT
